import Mathlib

/-!
Verification of the IFlow content-extraction and security-compliance core of
the `sapci_reviewer` repository (module
`ci_reviewer/backend/app/services/sap_tools.py`, class `SAPConnection`, and
the property extractor in `ci_reviewer/backupfiles/simplified_auth_validator.py`).

The Python code is shallowly embedded: strings are Lean `String`s, the fixed
regular expressions of the security analyzer are implemented as deterministic
token matchers (each pattern used by the source is a sequence of literals,
single-character classes and negated-character-class runs, so greedy matching
without backtracking coincides with Python `re` semantics on them), XML
documents already parsed by `xml.etree.ElementTree` are values of an element
tree type, and the filesystem is an association list from paths to contents.
Python exceptions are modelled with `Except` where the code catches them.
-/

namespace SapTools

/-! ## Python string primitives -/

/-- The characters stripped by Python `str.strip()`. -/
def pyWsChar (c : Char) : Bool :=
  c = ' ' || c = '\t' || c = '\n' || c = '\r' || c = '\x0b' || c = '\x0c'

/-- Python `str.strip()`: remove leading and trailing whitespace. -/
def pyStrip (s : String) : String :=
  ⟨((s.data.dropWhile pyWsChar).reverse.dropWhile pyWsChar).reverse⟩

/-- Holds when `n` occurs as a contiguous block in `l`. -/
def listContains (n : List Char) : List Char → Bool
  | [] => n.isEmpty
  | c :: rest => n.isPrefixOf (c :: rest) || listContains n rest

/-- Python `needle in hay` on strings: substring containment. -/
def strIn (needle hay : String) : Bool :=
  listContains needle.data hay.data

/-- Python `str.lower()` (the inputs of interest are ASCII). -/
def pyLower (s : String) : String :=
  ⟨s.data.map Char.toLower⟩

/-- Python `str.startswith(pre)`. -/
def pyStartsWith (s pre : String) : Bool :=
  pre.data.isPrefixOf s.data

/-- Python `str.endswith(suf)`. -/
def pyEndsWith (s suf : String) : Bool :=
  suf.data.reverse.isPrefixOf s.data.reverse

/-- Case-insensitive containment, modelling `re.search(lit, content, re.IGNORECASE)`
for a pattern `lit` that has no metacharacters. -/
def ciIn (needle hay : String) : Bool :=
  strIn (pyLower needle) (pyLower hay)

/-- Python `str.splitlines()` restricted to the line boundaries `\n`, `\r\n`
and `\r` (the exotic Unicode boundaries Python also recognises do not occur
in the inputs of interest).  No trailing empty line is produced. -/
def pySplitlinesAux : List Char → List Char → List String
  | [], acc => if acc.isEmpty then [] else [⟨acc.reverse⟩]
  | '\r' :: '\n' :: rest, acc => String.mk acc.reverse :: pySplitlinesAux rest []
  | '\n' :: rest, acc => String.mk acc.reverse :: pySplitlinesAux rest []
  | '\r' :: rest, acc => String.mk acc.reverse :: pySplitlinesAux rest []
  | c :: rest, acc => pySplitlinesAux rest (c :: acc)

def pySplitlines (s : String) : List String :=
  pySplitlinesAux s.data []

/-- Python `line.split(sep, 1)` for a one-character separator: split on the
first occurrence only.  Returns `none` when the separator does not occur. -/
def splitFirstAux (sep : Char) : List Char → List Char → Option (List Char × List Char)
  | [], _ => none
  | c :: rest, acc => if c = sep then some (acc.reverse, rest) else splitFirstAux sep rest (c :: acc)

def splitFirst (sep : Char) (s : String) : Option (String × String) :=
  (splitFirstAux sep s.data []).map fun p => (⟨p.1⟩, ⟨p.2⟩)

/-! ## Property Extractor
(`extract_properties` in `backupfiles/simplified_auth_validator.py`,
lines 23–44).  A Python `dict` is modelled as an association list in
insertion order; assignment to an existing key updates it in place,
assignment to a new key appends it. -/

/-- Python `d[k] = v` on an insertion-ordered dict. -/
def dictAssign (m : List (String × String)) (k v : String) : List (String × String) :=
  if m.any (fun kv => kv.1 = k) then
    m.map (fun kv => if kv.1 = k then (k, v) else kv)
  else
    m ++ [(k, v)]

/-- The trimmed key/value pair one loop iteration of `extract_properties`
contributes: strip the line; empty, comment (`#`-prefixed) and `=`-free
lines contribute nothing; otherwise split on the first `=` and trim both
halves. -/
def linePair (rawLine : String) : Option (String × String) :=
  let line := pyStrip rawLine
  if line ≠ "" && !pyStartsWith line "#" && strIn "=" line then
    (splitFirst '=' line).map fun p => (pyStrip p.1, pyStrip p.2)
  else
    none

/-- The key a valid property line contributes. -/
def lineKey (rawLine : String) : Option String :=
  (linePair rawLine).map fun kv => kv.1

/-- One loop iteration of `extract_properties`:
`properties[key.strip()] = value.strip()` for a valid line, no effect
otherwise. -/
def extractPropLine (m : List (String × String)) (rawLine : String) : List (String × String) :=
  match linePair rawLine with
  | some kv => dictAssign m kv.1 kv.2
  | none => m

/-- Python `extract_properties(properties_content)`: parse flat `key=value` text
into a property mapping. -/
def extract_properties (propertiesContent : String) : List (String × String) :=
  (pySplitlines propertiesContent).foldl extractPropLine []

/-! ## Parameter resolution
(the property-lookup loop of `check_security_compliance`,
`sap_tools.py` lines 2004–2010 and identically 2076–2082). -/

/-- The three acceptance criteria of the lookup loop, combined with `or`
exactly as in the source: exact key, suffix `_<param>`, or case-insensitive
key. -/
def pkMatches (propKey paramName : String) : Bool :=
  propKey = paramName || pyEndsWith propKey ("_" ++ paramName) ||
    (pyLower propKey) = (pyLower paramName)

/-- The resolution loop: iterate the property mapping in insertion order and
take the value of the first key satisfying any criterion (`break`). -/
def resolveParam : List (String × String) → String → Option String
  | [], _ => none
  | kv :: rest, paramName =>
      if pkMatches kv.1 paramName then some kv.2 else resolveParam rest paramName

/-- Modelled from the spec: resolution with the precedence the specification
describes — an exact key match is used first; only if none exists is a key
with suffix `_<param>` used; only if neither exists is a case-insensitive
match used. -/
def specResolveParam (props : List (String × String)) (paramName : String) : Option String :=
  match props.find? (fun kv => kv.1 = paramName) with
  | some kv => some kv.2
  | none =>
    match props.find? (fun kv => pyEndsWith kv.1 ("_" ++ paramName)) with
    | some kv => some kv.2
    | none =>
      match props.find? (fun kv => (pyLower kv.1) = (pyLower paramName)) with
      | some kv => some kv.2
      | none => none

/-! ## Deterministic matcher for the analyzer's regular expressions

Every pattern scanned by `check_security_compliance` is a sequence of
plain literals, a single-character class (`[mM]`), greedy star runs
(`\s*`, `[^>]*`) and one greedy captured plus run (`([^<]+)`, `([^"]+)`,
`([^}]+)`).  In each pattern the character following a starred or plus run
is excluded from that run's class, so greedy matching never needs to
backtrack and coincides with Python `re` semantics. -/

inductive RTok where
  /-- A literal character sequence. -/
  | lit : List Char → RTok
  /-- A single character from a class, e.g. `[mM]`. -/
  | one : (Char → Bool) → RTok
  /-- A greedy zero-or-more run of a class, e.g. `\s*`, `[^>]*`. -/
  | star : (Char → Bool) → RTok
  /-- A greedy one-or-more captured run, e.g. `([^<]+)`. -/
  | grp : (Char → Bool) → RTok

/-- Match a token sequence at the head of the input.  Returns the capture
(if any group was traversed) and the rest of the input after the match. -/
def matchToks : List RTok → List Char → Option (List Char) →
    Option (Option (List Char) × List Char)
  | [], s, cap => some (cap, s)
  | .lit l :: toks, s, cap =>
      if l.isPrefixOf s then matchToks toks (s.drop l.length) cap else none
  | .one p :: toks, s, cap =>
      match s with
      | [] => none
      | c :: rest => if p c then matchToks toks rest cap else none
  | .star p :: toks, s, cap =>
      matchToks toks (s.dropWhile p) cap
  | .grp p :: toks, s, _cap =>
      let run := s.takeWhile p
      if run.isEmpty then none else matchToks toks (s.drop run.length) (some run)

/-- Models `re.findall` for a single-group pattern: scan left to right, at each
position try the pattern; on a match emit the capture and resume after the
match, otherwise advance one character.  Fuel bounds the recursion; it is
never exhausted because every pattern used here starts with a nonempty
literal, so each iteration consumes at least one character. -/
def findAllAux (toks : List RTok) : Nat → List Char → List String
  | 0, _ => []
  | _ + 1, [] => []
  | fuel + 1, s =>
      match matchToks toks s none with
      | some (some cap, rest) => String.mk cap :: findAllAux toks fuel rest
      | some (none, rest) => findAllAux toks fuel rest
      | none =>
          match s with
          | [] => []
          | _ :: t => findAllAux toks fuel t

def findAll (toks : List RTok) (content : String) : List String :=
  findAllAux toks (content.length + 1) content.data

/-- Models `re.search` for a groupless pattern: does any position match? -/
def searchTokAux (toks : List RTok) : Nat → List Char → Bool
  | 0, _ => false
  | _ + 1, [] => (matchToks toks [] none).isSome
  | fuel + 1, s =>
      match matchToks toks s none with
      | some _ => true
      | none =>
          match s with
          | [] => false
          | _ :: t => searchTokAux toks fuel t

def searchTok (toks : List RTok) (content : String) : Bool :=
  searchTokAux toks (content.length + 1) content.data

/-- Character-class helpers for the concrete patterns. -/
def isPyWs (c : Char) : Bool := pyWsChar c

def notLt (c : Char) : Bool := c ≠ '<'

def notQuote (c : Char) : Bool := c ≠ '"'

def notRBrace (c : Char) : Bool := c ≠ '\x7d'

def notGt (c : Char) : Bool := c ≠ '>'

def ismM (c : Char) : Bool := c = 'm' || c = 'M'

/-! ## XML element model

`xml.etree.ElementTree` elements after parsing: a tag (namespaced tags are
stored in `{uri}local` form), attributes, optional text and child elements. -/

mutual
inductive XElem : Type where
  | mk (tag : String) (attrib : List (String × String)) (text : Option String)
       (children : XList)

inductive XList : Type where
  | nil
  | cons (hd : XElem) (tl : XList)
end

def XElem.tag : XElem → String
  | .mk t _ _ _ => t

def XElem.attrib : XElem → List (String × String)
  | .mk _ a _ _ => a

def XElem.text : XElem → Option String
  | .mk _ _ tx _ => tx

def XElem.childrenL : XElem → XList
  | .mk _ _ _ cs => cs

def XList.toList : XList → List XElem
  | .nil => []
  | .cons c cs => c :: cs.toList

def XElem.children (e : XElem) : List XElem :=
  e.childrenL.toList

def XList.ofList : List XElem → XList
  | [] => .nil
  | c :: cs => .cons c (XList.ofList cs)

/-- Element constructor taking the children as an ordinary list. -/
def xe (tag : String) (attrib : List (String × String)) (text : Option String)
    (children : List XElem) : XElem :=
  .mk tag attrib text (XList.ofList children)

/-- All elements of the forest together with their descendants, in document
order. -/
def descendantsL : XList → List XElem
  | .nil => []
  | .cons (XElem.mk t a tx cs) rest =>
      XElem.mk t a tx cs :: (descendantsL cs ++ descendantsL rest)

/-- All proper descendants of an element, in document order (the node set
`.//*` iterates over). -/
def descendants (e : XElem) : List XElem :=
  descendantsL e.childrenL

/-- A namespace profile: mapping from prefix to namespace URI, as passed to
`findall`. -/
abbrev NsSet := List (String × String)

/-- The `.//`-style paths the source passes to `findall`: a prefixed tag,
a bare tag, a bare tag restricted to direct children (`./tag`), or the
`local-name()` form (which `ElementTree`'s limited XPath rejects with a
`SyntaxError`; the source catches it, so such paths yield nothing). -/
inductive Pat where
  | pref (px loc : String)
  | bare (loc : String)
  | childBare (loc : String)
  | localName (loc : String)
deriving Repr, DecidableEq

/-- Expanded `{uri}local` tag for a prefixed path, when the prefix is bound
in the profile; an unbound prefix makes `findall` raise (swallowed by the
source's per-pattern handlers). -/
def resolveTag (ns : NsSet) (px loc : String) : Option String :=
  (ns.lookup px).map fun uri => "\x7b" ++ uri ++ "\x7d" ++ loc

/-- Models `element.findall(path, namespaces)` for the path forms above. -/
def findPat (e : XElem) (p : Pat) (ns : NsSet) : List XElem :=
  match p with
  | .pref px loc =>
      match resolveTag ns px loc with
      | some t => (descendants e).filter (fun d => d.tag = t)
      | none => []
  | .bare loc => (descendants e).filter (fun d => d.tag = loc)
  | .childBare loc => e.children.filter (fun d => d.tag = loc)
  | .localName _ => []

/-- Models `element.find(path, namespaces)` restricted to the direct-child tag
forms used for `key`/`value` lookups (`'key'`, `'ifl:key'`, …). -/
def findChildPat (e : XElem) (p : Pat) (ns : NsSet) : Option XElem :=
  match p with
  | .pref px loc =>
      match resolveTag ns px loc with
      | some t => e.children.find? (fun d => d.tag = t)
      | none => none
  | .bare loc => e.children.find? (fun d => d.tag = loc)
  | .childBare loc => e.children.find? (fun d => d.tag = loc)
  | .localName _ => none

/-- Python `element.attrib[k]` as an optional lookup (`element.get`). -/
def attrOf (e : XElem) (k : String) : Option String :=
  e.attrib.lookup k

/-- Python `element.get(k, dflt)`. -/
def attrD (e : XElem) (k dflt : String) : String :=
  (attrOf e k).getD dflt

/-! ## `SAPConnection._extract_properties` (element level)

`sap_tools.py` defines this method twice, identically, at lines 1218 and
2179; in Python the later definition is the one bound on the class.  It
collects key/value pairs from `property` sub-elements under several path
variants and falls back to `key`/`value` or `name`/`value` attributes. -/

def propertyPaths : List Pat :=
  [.pref "ifl" "property", .childBare "property", .bare "property", .localName "property"]

def keyPaths : List Pat := [.bare "key", .pref "ifl" "key", .localName "key"]

def valuePaths : List Pat := [.bare "value", .pref "ifl" "value", .localName "value"]

/-- The key-lookup loop: first child found under some path whose text is
truthy (non-`None`, non-empty); paths whose element has falsy text are
passed over (the source `break`s only inside the truthiness test). -/
def keyTextLoop (prop : XElem) (ns : NsSet) : List Pat → Option String
  | [] => none
  | p :: rest =>
      match findChildPat prop p ns with
      | some el =>
          match el.text with
          | some t => if t ≠ "" then some t else keyTextLoop prop ns rest
          | none => keyTextLoop prop ns rest
      | none => keyTextLoop prop ns rest

/-- The value-lookup loop: `break`s at the first path under which an element
is found, taking its text whether or not the text is present. -/
def valueTextLoop (prop : XElem) (ns : NsSet) : List Pat → Option (Option String)
  | [] => none
  | p :: rest =>
      match findChildPat prop p ns with
      | some el => some el.text
      | none => valueTextLoop prop ns rest

/-- The pair a single `property` element contributes, if both a key text and
a value text were found. -/
def propPair (prop : XElem) (ns : NsSet) : Option (String × String) :=
  match keyTextLoop prop ns keyPaths, valueTextLoop prop ns valuePaths with
  | some k, some (some v) => some (k, v)
  | _, _ => none

/-- The method `SAPConnection._extract_properties(element, namespaces)`. -/
def extractProps (e : XElem) (ns : NsSet) : List (String × String) :=
  let hier := propertyPaths.flatMap fun path =>
    (findPat e path ns).filterMap fun prop => propPair prop ns
  if hier.isEmpty then
    (match attrOf e "key", attrOf e "value" with
     | some k, some v => [(k, v)]
     | _, _ => []) ++
    (match attrOf e "name", attrOf e "value" with
     | some n, some v => [(n, v)]
     | _, _ => [])
  else hier

/-! ## `SAPConnection.check_security_compliance`
(`sap_tools.py` lines 1939–2177).  The result record and the detection
stages, in source order.  `ET.fromstring(content)` is an external parser:
its outcome is passed in as `parsed : Option XElem` (`none` models
`ET.ParseError`).  The stages are the sequential blocks of the one source
function. -/

structure SecResult where
  detected_methods : List String
  is_compliant : Bool
  issues : List String
  details : List String
deriving Repr, DecidableEq

/-- Python `method.lower() in ["basic", "basic authentication"]`. -/
def isBasicStr (s : String) : Bool :=
  (pyLower s) = "basic" || (pyLower s) = "basic authentication"

/-- The six `auth_patterns` of lines 1966–1973, as token sequences. -/
def directAuthPatterns : List (List RTok) :=
  [ [.lit "<key>authenticationMethod</key>".data, .star isPyWs,
     .lit "<value>".data, .grp notLt, .lit "</value>".data],
    [.lit "<key>authentication".data, .one ismM, .lit "ethod</key>".data, .star isPyWs,
     .lit "<value>".data, .grp notLt, .lit "</value>".data],
    [.lit "<key>auth".data, .one ismM, .lit "ethod</key>".data, .star isPyWs,
     .lit "<value>".data, .grp notLt, .lit "</value>".data],
    [.lit "<property".data, .star notGt, .lit ">".data, .star isPyWs,
     .lit "<key>authenticationMethod</key>".data, .star isPyWs,
     .lit "<value>".data, .grp notLt, .lit "</value>".data],
    [.lit "authentication".data, .one ismM, .lit "ethod=\"".data, .grp notQuote, .lit "\"".data],
    [.lit "auth".data, .one ismM, .lit "ethod=\"".data, .grp notQuote, .lit "\"".data] ]

/-- All captures of the direct-authentication scan, in pattern order. -/
def directAuthMatches (content : String) : List String :=
  directAuthPatterns.flatMap fun p => findAll p content

/-- The five `param_auth_patterns` of lines 1989–1995. -/
def paramAuthPatterns : List (List RTok) :=
  [ [.lit "<key>authenticationMethod</key>".data, .star isPyWs,
     .lit "<value>\x7b\x7b".data, .grp notRBrace, .lit "\x7d\x7d</value>".data],
    [.lit "<key>authentication".data, .one ismM, .lit "ethod</key>".data, .star isPyWs,
     .lit "<value>\x7b\x7b".data, .grp notRBrace, .lit "\x7d\x7d</value>".data],
    [.lit "<key>auth".data, .one ismM, .lit "ethod</key>".data, .star isPyWs,
     .lit "<value>\x7b\x7b".data, .grp notRBrace, .lit "\x7d\x7d</value>".data],
    [.lit "authentication".data, .one ismM, .lit "ethod=\"\x7b\x7b".data, .grp notRBrace,
     .lit "\x7d\x7d\"".data],
    [.lit "auth".data, .one ismM, .lit "ethod=\"\x7b\x7b".data, .grp notRBrace,
     .lit "\x7d\x7d\"".data] ]

def paramAuthMatches (content : String) : List String :=
  paramAuthPatterns.flatMap fun p => findAll p content

/-- Loop body of the direct-authentication stage (lines 1978–1986). -/
def processDirectMatch (r : SecResult) (rawMethod : String) : SecResult :=
  let method := pyStrip rawMethod
  if method ≠ "" then
    let r1 := if r.detected_methods.contains method then r
              else { r with detected_methods := r.detected_methods ++ [method] }
    if isBasicStr method then
      { r1 with is_compliant := false,
                issues := r1.issues ++
                  ["Direct Basic Authentication detected: \x27" ++ method ++ "\x27"] }
    else r1
  else r

def stage1 (content : String) (r : SecResult) : SecResult :=
  (directAuthMatches content).foldl processDirectMatch r

/-- Loop body of the parameterized-authentication stage (lines 1999–2020).
`if resolved_value:` is Python truthiness, so an empty-string resolution
falls into the could-not-resolve branch. -/
def processParamMatch (properties : List (String × String)) (r : SecResult)
    (rawName : String) : SecResult :=
  let paramName := pyStrip rawName
  let r := { r with details := r.details ++
    ["Found parameterized authentication: \x7b" ++ paramName ++ "\x7d"] }
  let unresolved : SecResult := { r with details := r.details ++
    ["Could not resolve parameter: \x27" ++ paramName ++ "\x27"] }
  match resolveParam properties paramName with
  | some v =>
      if v ≠ "" then
        let r1 := if r.detected_methods.contains v then r
                  else { r with detected_methods :=
                           r.detected_methods ++ [v ++ " (from " ++ paramName ++ ")"] }
        if isBasicStr v then
          { r1 with is_compliant := false,
                    issues := r1.issues ++
                      ["Basic Authentication detected via parameter: \x27" ++ paramName ++
                       "\x27 = \x27" ++ v ++ "\x27"] }
        else r1
      else unresolved
  | none => unresolved

def stage2 (content : String) (properties : List (String × String)) (r : SecResult) : SecResult :=
  (paramAuthMatches content).foldl (processParamMatch properties) r

/-- Namespace profiles of the message-flow walk (lines 2027–2037). -/
def bpmnModelUri : String := "http://www.omg.org/spec/BPMN/20100524/MODEL"

def iflUri : String := "http:///com.sap.ifl.model/Ifl.xsd"

def secNsSets : List NsSet :=
  [ [("bpmn2", bpmnModelUri), ("ifl", iflUri)],
    [("bpmn", bpmnModelUri), ("ifl", iflUri)],
    [] ]

def msgFlowPats : List Pat :=
  [.pref "bpmn2" "messageFlow", .pref "bpmn" "messageFlow",
   .bare "messageFlow", .localName "messageFlow"]

/-- Per-property body of the message-flow walk (lines 2060–2092). -/
def processFlowProp (properties : List (String × String)) (r : SecResult)
    (kv : String × String) : SecResult :=
  if kv.1 = "authenticationMethod" then
    let value := kv.2
    if !(pyStartsWith value "\x7b\x7b" && pyEndsWith value "\x7d\x7d") then
      let r1 := if r.detected_methods.contains value then r
                else { r with detected_methods := r.detected_methods ++ [value] }
      if isBasicStr value then
        { r1 with is_compliant := false,
                  issues := r1.issues ++
                    ["Direct Basic Authentication detected in message flow: \x27" ++
                     value ++ "\x27"] }
      else r1
    else
      let paramName := pyStrip ((value.drop 2).dropRight 2)
      let r := { r with details := r.details ++
        ["Found parameterized authentication in message flow: " ++ value] }
      let unresolved : SecResult := { r with details := r.details ++
        ["Could not resolve parameter in message flow: \x27" ++ paramName ++ "\x27"] }
      match resolveParam properties paramName with
      | some v =>
          if v ≠ "" then
            let r1 := if r.detected_methods.contains v then r
                      else { r with detected_methods :=
                               r.detected_methods ++ [v ++ " (from " ++ paramName ++ ")"] }
            if isBasicStr v then
              { r1 with is_compliant := false,
                        issues := r1.issues ++
                          ["Basic Authentication detected via parameter in message flow: \x27" ++
                           paramName ++ "\x27 = \x27" ++ v ++ "\x27"] }
            else r1
          else unresolved
      | none => unresolved
  else r

def processFlow (ns : NsSet) (properties : List (String × String)) (r : SecResult)
    (flow : XElem) : SecResult :=
  (extractProps flow ns).foldl (processFlowProp properties) r

/-- The namespace-set loop of the message-flow walk (lines 2040–2098): all
four patterns of a profile are processed; the loop `break`s after the first
profile under which some pattern found message flows. -/
def stage3Ns (root : XElem) (properties : List (String × String)) :
    List NsSet → SecResult → SecResult
  | [], r => r
  | ns :: rest, r =>
      let flowLists := msgFlowPats.map fun p => findPat root p ns
      let r1 := flowLists.foldl (fun acc flows => flows.foldl (processFlow ns properties) acc) r
      if flowLists.any (fun l => !l.isEmpty) then r1
      else stage3Ns root properties rest r1

/-- The structured message-flow stage; on `ET.ParseError` only a detail is
recorded (the parser's message text is elided from the model). -/
def stage3 (parsed : Option XElem) (properties : List (String × String))
    (r : SecResult) : SecResult :=
  match parsed with
  | some root => stage3Ns root properties secNsSets r
  | none => { r with details := r.details ++ ["XML parsing error during security check"] }

/-- Pattern `"authentication"\s*:\s*"basic"` (case-insensitive: matched against the
lowered content). -/
def jsonAuthBasicToks : List RTok :=
  [.lit "\"authentication\"".data, .star isPyWs, .lit ":".data, .star isPyWs, .lit "\"basic\"".data]

/-- Pattern `"auth_type"\s*:\s*"basic"` (case-insensitive). -/
def jsonAuthTypeBasicToks : List RTok :=
  [.lit "\"auth_type\"".data, .star isPyWs, .lit ":".data, .star isPyWs, .lit "\"basic\"".data]

/-- The `basic_auth_patterns` of lines 2106–2113: does any match? (The source
`break`s after the first hit, appending once.) -/
def basicAuthFallbackHit (content : String) : Bool :=
  ciIn "basicAuthentication" content || ciIn "Basic Authentication" content ||
  ciIn "BasicAuth" content || ciIn "basic_auth" content ||
  searchTok jsonAuthBasicToks (pyLower content) ||
  searchTok jsonAuthTypeBasicToks (pyLower content)

/-- The `oauth_patterns` of lines 2123–2130. -/
def oauthFallbackHit (content : String) : Bool :=
  ciIn "oauth" content || ciIn "OAuth" content || ciIn "Authorization Code" content ||
  ciIn "Client Credentials" content || ciIn "Bearer" content || ciIn "JWT" content

/-- The `cert_patterns` of lines 2138–2145. -/
def certFallbackHit (content : String) : Bool :=
  ciIn "certificate" content || ciIn "Certificate" content || ciIn "x509" content ||
  ciIn "X509" content || ciIn "client cert" content || ciIn "mutual auth" content

/-- Fallback pattern stage (lines 2104–2150), entered only when nothing was
detected so far. -/
def stage4 (content : String) (r : SecResult) : SecResult :=
  if r.detected_methods.isEmpty then
    let r1 := if basicAuthFallbackHit content then
                { r with detected_methods := r.detected_methods ++ ["Basic Authentication (pattern match)"],
                         is_compliant := false,
                         issues := r.issues ++ ["Basic Authentication detected via string pattern"] }
              else r
    let r2 := if oauthFallbackHit content then
                { r1 with detected_methods := r1.detected_methods ++ ["OAuth (pattern match)"] }
              else r1
    if certFallbackHit content then
      { r2 with detected_methods := r2.detected_methods ++ ["Certificate (pattern match)"] }
    else r2
  else r

/-- Property cross-reference stage (lines 2153–2160).  Note that the needle
`"authenticationMethod"` is tested against the lowered key, exactly as in
the source. -/
def stage5Step (r : SecResult) (kv : String × String) : SecResult :=
  let r1 := if strIn "authenticationMethod" (pyLower kv.1) && strIn "certificate" (pyLower kv.2) then
              { r with detected_methods := r.detected_methods ++ ["Certificate (from property)"] }
            else r
  if (strIn "authenticationMethod" (pyLower kv.1) || strIn "auth_type" (pyLower kv.1)) &&
      strIn "oauth" (pyLower kv.2) then
    { r1 with detected_methods := r1.detected_methods ++ ["OAuth (from property)"] }
  else r1

def stage5 (properties : List (String × String)) (r : SecResult) : SecResult :=
  properties.foldl stage5Step r

/-- Python `list(set(...))` on the three list outputs (lines 2162–2165); the Python
set iteration order is arbitrary, so deduplication is modelled up to order
by `List.dedup`. -/
def dedupStage (r : SecResult) : SecResult :=
  { r with detected_methods := r.detected_methods.dedup,
           issues := r.issues.dedup,
           details := r.details.dedup }

/-- Pattern `(http[s]?://|endpoint|url|uri)`, searched case-insensitively. -/
def extCallPattern (content : String) : Bool :=
  ciIn "http://" content || ciIn "https://" content || ciIn "endpoint" content ||
  ciIn "url" content || ciIn "uri" content

/-- Final policy (lines 2167–2172). -/
def stage6 (content : String) (r : SecResult) : SecResult :=
  if r.detected_methods.isEmpty && extCallPattern content then
    { r with details := r.details ++
               ["External API calls detected but no authentication method identified"],
             issues := r.issues ++ ["Possible missing authentication for external services"],
             is_compliant := false }
  else r

/-- The method `SAPConnection.check_security_compliance(content, properties)`.  The
initial record is `{detected_methods: [], is_compliant: True, issues: [],
details: []}`; nothing inside the source's `try` block can raise in this
model, so the outer handler (line 2174) is not represented. -/
def check_security_compliance (content : String) (parsed : Option XElem)
    (properties : List (String × String)) : SecResult :=
  stage6 content (dedupStage (stage5 properties (stage4 content
    (stage3 parsed properties (stage2 content properties
      (stage1 content ⟨[], true, [], []⟩))))))

/-! ## Result record and error-handling extraction -/

/-- An entry of the `error_handling` list. -/
structure EHEntry where
  subprocess : Option String
  details : String
deriving Repr, DecidableEq

/-- The slice of the record built by `_initialize_result_structure`
(lines 689–715) that the verified claims read.  Fields not involved in any
claim (workflow, key steps, adapters, mappings, parameters, connection
details, folder structure, meta info, manifest) are omitted.  `error` is not
a key of the initial record; it is added by later assignments, modelled as
an `Option`. -/
structure IFlowResult where
  error : Option String
  security : List String
  security_compliant : Bool
  security_issues : List String
  security_details : List String
  project_files : List String
  error_handling : List EHEntry
  has_proper_error_handling : Bool
  processing_errors : List String

def initResult : IFlowResult :=
  { error := none, security := [], security_compliant := false,
    security_issues := [], security_details := [], project_files := [],
    error_handling := [], has_proper_error_handling := false,
    processing_errors := [] }

/-! ### `SAPConnection._extract_error_handling` (lines 1571–1660) -/

def subprocessPats : List Pat :=
  [.pref "bpmn2" "subProcess", .pref "bpmn" "subProcess",
   .bare "subProcess", .localName "subProcess"]

def errorEventPats : List Pat :=
  [.pref "bpmn2" "errorEventDefinition", .pref "bpmn" "errorEventDefinition",
   .bare "errorEventDefinition", .localName "errorEventDefinition"]

/-- Does this subprocess contain an error-event definition under any of the
error-event paths (lines 1594–1601)? -/
def spHasErrorEvent (sp : XElem) (ns : NsSet) : Bool :=
  errorEventPats.any fun p => !(findPat sp p ns).isEmpty

/-- The first property of the subprocess whose key is `activitytype`
(lowered) and whose value mentions `error` (lines 1611–1622); the source
`break`s at the first hit. -/
def spErrProp (sp : XElem) (ns : NsSet) : Option String :=
  ((extractProps sp ns).find? fun kv =>
    (pyLower kv.1) = "activitytype" && strIn "error" (pyLower kv.2)).map fun kv => kv.2

/-- Per-subprocess loop body (lines 1592–1622), threading the accumulated
entry list and the `has_error_handling` flag. -/
def ehSubprocStep (ns : NsSet) (acc : List EHEntry × Bool) (sp : XElem) :
    List EHEntry × Bool :=
  let acc1 :=
    if spHasErrorEvent sp ns then
      (acc.1 ++ [⟨some (attrD sp "name" "Unnamed Subprocess"),
                 "Handles errors with error start and end events"⟩], true)
    else acc
  match spErrProp sp ns with
  | some v =>
      (acc1.1 ++ [⟨some (attrD sp "name" "Unnamed Subprocess"),
                  "Error handling subprocess: " ++ v⟩], true)
  | none => acc1

/-- All subprocesses found, across all four patterns (the pattern loop does
not `break`). -/
def allSubprocs (root : XElem) (ns : NsSet) : List XElem :=
  subprocessPats.flatMap fun p => findPat root p ns

/-- The `error_handler_patterns` loop (lines 1627–1643): handlers and
dead-letter queues; each found element appends `'<tag> configured'` and sets
the flag.  The `local-name()` forms raise inside `findall` and are
swallowed, contributing nothing. -/
def handlerHits (root : XElem) (ns : NsSet) : List EHEntry :=
  (findPat root (.bare "errorHandler") ns).map (fun _ => ⟨none, "errorHandler configured"⟩) ++
  (findPat root (.bare "deadLetterQueue") ns).map (fun _ => ⟨none, "deadLetterQueue configured"⟩)

/-- The method `SAPConnection._extract_error_handling(root, namespaces, result)`:
entries accumulate onto the result's existing `error_handling` list, the
flag starts false, and the final summary block (lines 1645–1660) appends a
qualitative entry. -/
def extractErrorHandling (root : XElem) (ns : NsSet) (r : IFlowResult) : IFlowResult :=
  let s1 := (allSubprocs root ns).foldl (ehSubprocStep ns) (r.error_handling, false)
  let hh := handlerHits root ns
  let entries := s1.1 ++ hh
  let hasEH := s1.2 || !hh.isEmpty
  let entries' :=
    if hasEH && entries.isEmpty then
      entries ++ [⟨none, "Error handling properly configured with error subprocesses"⟩]
    else if !entries.isEmpty then
      if !hasEH then
        entries ++ [⟨none, "Basic error handling elements found but no proper error subprocesses"⟩]
      else entries
    else
      entries ++ [⟨none, "No error handling detected"⟩]
  { r with has_proper_error_handling := hasEH, error_handling := entries' }

/-! ### `SAPConnection._extract_participants` (lines 1402–1446) and the
process discovery of `_extract_workflow` (lines 1293–1299) -/

structure Participant where
  name : String
  properties : List (String × String)
deriving Repr, DecidableEq

def participantPats : List Pat :=
  [.pref "bpmn2" "participant", .pref "bpmn" "participant",
   .bare "participant", .localName "participant"]

/-- Attribute-based participant type: the literal attribute keys
`'ifl:type'` then `'type'` (lines 1415–1419). -/
def participantAttrType (p : XElem) : Option String :=
  match attrOf p "ifl:type" with
  | some t => some t
  | none => attrOf p "type"

/-- Property-based fallback type (lines 1425–1429). -/
def participantPropType (props : List (String × String)) : Option String :=
  (props.find? fun kv =>
    (pyLower kv.1) = "type" || (pyLower kv.1) = "participanttype" || (pyLower kv.1) = "role").map
    fun kv => kv.2

/-- Classification of one participant element (lines 1413–1444), appending
to the sender/receiver lists. -/
def classifyParticipant (ns : NsSet) (acc : List Participant × List Participant)
    (p : XElem) : List Participant × List Participant :=
  let name := attrD p "name" "Unnamed"
  let props := extractProps p ns
  let ptype :=
    match participantAttrType p with
    | some t => some t
    | none => participantPropType props
  match ptype with
  | some t =>
      if strIn "sender" (pyLower t) then (acc.1 ++ [⟨name, props⟩], acc.2)
      else if strIn "receiver" (pyLower t) || strIn "recevier" (pyLower t) then
        (acc.1, acc.2 ++ [⟨name, props⟩])
      else acc
  | none =>
      if props.any (fun kv => kv.1 = "address") ||
          props.any (fun kv => strIn "url" (pyLower kv.1)) then
        if strIn "sender" (pyLower name) || strIn "source" (pyLower name) ||
            strIn "from" (pyLower name) then
          (acc.1 ++ [⟨name, props⟩], acc.2)
        else if strIn "receiver" (pyLower name) || strIn "target" (pyLower name) ||
            strIn "to" (pyLower name) || strIn "destination" (pyLower name) then
          (acc.1, acc.2 ++ [⟨name, props⟩])
        else acc
      else acc

/-- The method `_extract_participants`: all four patterns are iterated (no `break`),
each found participant classified. -/
def extractParticipants (root : XElem) (ns : NsSet) :
    List Participant × List Participant :=
  (participantPats.flatMap fun p => findPat root p ns).foldl (classifyParticipant ns) ([], [])

/-- The processes the workflow extractor discovers: the three process tag
sets of line 1293, resolved against the profile. -/
def processTagPats : List Pat :=
  [.pref "bpmn2" "process", .pref "bpmn" "process", .bare "process"]

def workflowProcesses (root : XElem) (ns : NsSet) : List XElem :=
  processTagPats.flatMap fun p => findPat root p ns

/-! ### The namespace-profile loop of `_process_iflow_definition`
(lines 1139–1215; `_process_xml_file` at 809–879 has the same structure).

`ET.fromstring(content)` does not read the `namespaces` dictionary, so its
outcome is the same in every iteration and is passed in as
`parsed : Option XElem`.  Every sub-extractor and the security check catch
their own exceptions, so the `try` body completes whenever parsing does, and
`success = True; break` fires in the first iteration with a parseable
document. -/

/-- The three namespace profiles of lines 1140–1151. -/
def bpmnDiUri : String := "http://www.omg.org/spec/BPMN/20100524/DI"

def iflowNs1 : NsSet :=
  [("bpmn2", bpmnModelUri), ("ifl", iflUri), ("bpmndi", bpmnDiUri)]

def iflowNs2 : NsSet :=
  [("bpmn", bpmnModelUri), ("ifl", iflUri)]

def iflowNamespaceSets : List NsSet := [iflowNs1, iflowNs2, []]

/-- The structural signal relevant to claim C6: what one profile's
extraction pass discovers. -/
structure ProfileExtraction where
  senders : List Participant
  receivers : List Participant
  processes : List XElem

def runProfileExtraction (root : XElem) (ns : NsSet) : ProfileExtraction :=
  let parts := extractParticipants root ns
  { senders := parts.1, receivers := parts.2, processes := workflowProcesses root ns }

/-- The profile loop: on a parse failure (`ET.ParseError`) the next profile
is tried; on a parse success the whole extraction pass runs and the loop
`break`s.  `none` means all profiles failed (the caller then falls back to
regex extraction). -/
def processIflowProfiles (parsed : Option XElem) :
    List NsSet → Option (NsSet × ProfileExtraction)
  | [] => none
  | ns :: rest =>
      match parsed with
      | some root => some (ns, runProfileExtraction root ns)
      | none => processIflowProfiles parsed rest

/-! ## `SAPConnection.integrate_security_check` (lines 2327–2399)

The methods defined on class `SAPConnection` (transcribed from the class
body of `sap_tools.py`; `_extract_properties` appears twice in the source,
lines 1218 and 2179).  There is no `extract_properties` method, so the calls
`self.extract_properties(...)` at lines 2355 and 2373 raise
`AttributeError`. -/

def sapConnectionMethodNames : List String :=
  ["__init__", "ensure_dir", "get_token", "set_query",
   "search_integration_packages", "get_package_details",
   "extract_all_iflows_from_package", "get_iflow_content",
   "_initialize_result_structure", "_process_zip_file", "_process_xml_file",
   "_process_unknown_file", "_extract_with_regex", "_process_project_file",
   "_process_metainfo_file", "_process_manifest_file",
   "_find_iflow_definition_files", "_process_iflow_definition",
   "_extract_properties", "_extract_workflow", "_extract_key_steps",
   "_extract_adapters", "_extract_participants", "_extract_mappings",
   "_extract_parameters", "_extract_error_handling",
   "_extract_connection_details", "_display_result_summary", "extract_iflow",
   "check_security_compliance", "get_iflow_details",
   "integrate_security_check", "debug_package_id"]

/-- Dynamic dispatch of `self.extract_properties(arg)`: if the class had a
method of that name it would parse the property text (the intended
behaviour, as in `simplified_auth_validator.extract_properties`); since it
does not, the attribute access raises `AttributeError`. -/
def callExtractProperties (arg : String) :
    Except String (List (String × String)) :=
  if "extract_properties" ∈ sapConnectionMethodNames then
    Except.ok (extract_properties arg)
  else
    Except.error "AttributeError: \x27SAPConnection\x27 object has no attribute \x27extract_properties\x27"

/-- Python `properties.update(d)` on an insertion-ordered dict. -/
def dictUpdate (m d : List (String × String)) : List (String × String) :=
  d.foldl (fun acc kv => dictAssign acc kv.1 kv.2) m

/-- Per-property-file body of the ZIP branch (lines 2350–2362): the raised
`AttributeError` is caught by the `except` at line 2361, leaving the
accumulator unchanged. -/
def zipPropStep (properties : List (String × String)) (propContent : String) :
    List (String × String) :=
  match callExtractProperties propContent with
  | .ok fileProperties => dictUpdate properties fileProperties
  | .error _ => properties

/-- The property names selected from the archive (line 2346–2347). -/
def isPropFileName (f : String) : Bool :=
  pyEndsWith f ".prop" && (strIn "parameter" (pyLower f) || strIn "propert" (pyLower f))

/-- The property-gathering prefix of `integrate_security_check`
(lines 2341–2383): the ZIP branch when the artifact path ends in `.zip`,
then the adjacent `parameters.prop` branch when nothing was collected.  In
the directory branch the `AttributeError` is raised before
`properties.update(...)` and `result["project_files"].append(...)` run, and
is caught at line 2380, so neither takes effect. -/
def integrateGatherProps (iflowPath : String) (zipEntries : List (String × String))
    (paramsFileContent : Option String) : List (String × String) :=
  let fromZip :=
    if pyEndsWith iflowPath ".zip" then
      ((zipEntries.filter fun en => isPropFileName en.1).map fun en => en.2).foldl
        zipPropStep []
    else []
  if fromZip.isEmpty then
    match paramsFileContent with
    | some paramContent =>
        match callExtractProperties paramContent with
        | .ok paramProperties => dictUpdate fromZip paramProperties
        | .error _ => fromZip
    | none => fromZip
  else fromZip

/-- The method `SAPConnection.integrate_security_check(content, iflow_path, result)`:
gather properties, run the compliance check, copy its four outputs into the
result record (lines 2385–2398).  `parsed` is the `ET.fromstring` outcome
for `content`, consumed inside `check_security_compliance`. -/
def integrate_security_check (content : String) (parsed : Option XElem)
    (iflowPath : String) (zipEntries : List (String × String))
    (paramsFileContent : Option String) (result : IFlowResult) : IFlowResult :=
  let properties := integrateGatherProps iflowPath zipEntries paramsFileContent
  let securityCheck := check_security_compliance content parsed properties
  { result with security := securityCheck.detected_methods,
                security_compliant := securityCheck.is_compliant,
                security_issues := securityCheck.issues,
                security_details := securityCheck.details }

/-! ## Filesystem model, `_process_zip_file` and `get_iflow_content`

The filesystem is an association list from absolute paths to contents
(directories are entries whose content is irrelevant).  `shutil.rmtree`
removes a directory and everything under it. -/

abbrev FS := List (String × String)

def fsLookup (fs : FS) (p : String) : Option String :=
  fs.lookup p

/-- Holds when `p` is the directory `d` itself or lies beneath it. -/
def underDir (d p : String) : Bool :=
  p = d || (d ++ "/").data.isPrefixOf p.data

/-- Python `os.makedirs(d, exist_ok=True)`. -/
def mkdirp (fs : FS) (d : String) : FS :=
  if (fsLookup fs d).isSome then fs else fs ++ [(d, "")]

/-- Write (create or overwrite) a file. -/
def fsWrite (fs : FS) (p content : String) : FS :=
  if (fsLookup fs p).isSome then
    fs.map fun e => if e.1 = p then (p, content) else e
  else
    fs ++ [(p, content)]

/-- Python `shutil.rmtree(d)` (plus the implicit removal of `d` itself). -/
def rmtree (fs : FS) (d : String) : FS :=
  fs.filter fun e => !underDir d e.1

/-- The archive entries extracted by `_process_zip_file`
(`known_patterns`, lines 747–751; selection is substring containment,
line 759). -/
def knownPatterns : List String :=
  [".xml", ".iflw", ".project", "metainfo.prop", "MANIFEST.MF", ".prop",
   "parameters.prop", "IntegrationFlow", "META-INF"]

def selectedEntries (entries : List (String × String)) : List (String × String) :=
  entries.filter fun en => knownPatterns.any fun pat => strIn pat en.1

/-- Opening the archive: `zipfile.ZipFile(file_path, 'r')` either yields the
entry list or raises `BadZipFile` (modelled by `none`). -/
def zipOpen (zipData : Option (List (String × String))) :
    Except String (List (String × String)) :=
  match zipData with
  | some entries => Except.ok entries
  | none => Except.error "File is not a zip file"

/-- The method `SAPConnection._process_zip_file(file_path, result)` (lines 717–799),
as a transformer of the filesystem and the result record.

* the scratch directory `unzip_dir` is created first;
* on a `BadZipFile` the `except` at line 787 records
  `result["error"] = "Extraction error: ..."`;
* otherwise the selected entries are written beneath `unzip_dir`; the
  subsequent processing of `.project`, `metainfo.prop`, `MANIFEST.MF` and
  the IFlow definition files only *reads* the extracted files (their
  result-record updates are modelled separately by
  `processIflowProfiles`/`integrate_security_check` and do not change the
  filesystem);
* the `finally` block (lines 793–799) removes `unzip_dir` on every exit
  path. -/
def processZipFile (fs : FS) (unzipDir : String)
    (zipData : Option (List (String × String))) (r : IFlowResult) :
    FS × IFlowResult :=
  let fs1 := mkdirp fs unzipDir
  match zipOpen zipData with
  | .error msg =>
      (rmtree fs1 unzipDir, { r with error := some ("Extraction error: " ++ msg) })
  | .ok entries =>
      let fs2 := (selectedEntries entries).foldl
        (fun acc en => fsWrite acc (unzipDir ++ "/" ++ en.1) en.2) fs1
      (rmtree fs2 unzipDir, r)

/-- The scratch directory chosen at lines 720–722: `extracted_<uuid4>`
adjacent to the archive.  The uuid makes it collision-free; freshness is a
hypothesis of the cleanup theorem. -/
def scratchDir (parentDir uniqueId : String) : String :=
  parentDir ++ "/extracted_" ++ uniqueId

/-- The method `SAPConnection.get_iflow_content(iflow_path)` (lines 620–687),
specialized to the dispatch relevant to the verified claims: a missing
path or a nonexistent file yields an error record; a `.zip` path runs
`_process_zip_file` (whose internal handler absorbs `BadZipFile`); the
`.xml`/`.iflw`/unknown branches are exercised by no claim and return the
freshly initialized record unchanged. -/
def getIflowContent (fs : FS) (iflowPath : Option String) (unzipDir : String)
    (zipData : Option (List (String × String))) : FS × IFlowResult :=
  match iflowPath with
  | none =>
      (fs, { initResult with error := some "No IFlow path available. Run extract_iflow first." })
  | some p =>
      if (fsLookup fs p).isNone then
        (fs, { initResult with error := some ("File does not exist: " ++ p) })
      else if pyEndsWith p ".zip" then
        processZipFile fs unzipDir zipData initResult
      else
        (fs, initResult)

/-! ## Theorems -/

/-! ### Property extractor characterization (claim C8) -/

lemma dictAssign_keys (m : List (String × String)) (k v k' : String) :
    (∃ w, (k', w) ∈ dictAssign m k v) ↔ (∃ w, (k', w) ∈ m) ∨ k' = k := by
  unfold dictAssign
  split
  case isTrue h =>
    constructor
    · rintro ⟨w, hw⟩
      rw [List.mem_map] at hw
      obtain ⟨x, hx, hfx⟩ := hw
      by_cases hxk : x.1 = k
      · rw [if_pos hxk] at hfx
        exact Or.inr (Prod.mk.injEq .. ▸ hfx).1.symm
      · rw [if_neg hxk] at hfx
        exact Or.inl ⟨w, hfx ▸ hx⟩
    · have hwit : ∃ w, (k, w) ∈ m.map fun kv => if kv.1 = k then (k, v) else kv := by
        obtain ⟨x, hxm, hx1⟩ := List.any_eq_true.mp h
        exact ⟨v, List.mem_map.mpr ⟨x, hxm, by rw [if_pos (of_decide_eq_true hx1)]⟩⟩
      rintro (⟨w, hw⟩ | rfl)
      · by_cases hk : k' = k
        · exact hk ▸ hwit
        · exact ⟨w, List.mem_map.mpr ⟨(k', w), hw, by simp [hk]⟩⟩
      · exact hwit
  case isFalse h =>
    constructor
    · rintro ⟨w, hw⟩
      rcases List.mem_append.mp hw with hw | hw
      · exact Or.inl ⟨w, hw⟩
      · simp only [List.mem_singleton, Prod.mk.injEq] at hw
        exact Or.inr hw.1
    · rintro (⟨w, hw⟩ | rfl)
      · exact ⟨w, List.mem_append.mpr (Or.inl hw)⟩
      · exact ⟨v, List.mem_append.mpr (Or.inr (List.mem_singleton.mpr rfl))⟩

lemma dictAssign_pairs (m : List (String × String)) (k v : String) (kv' : String × String) :
    kv' ∈ dictAssign m k v → kv' ∈ m ∨ kv' = (k, v) := by
  unfold dictAssign
  split
  · intro h
    rw [List.mem_map] at h
    obtain ⟨x, hx, hfx⟩ := h
    by_cases hxk : x.1 = k
    · rw [if_pos hxk] at hfx
      exact Or.inr hfx.symm
    · rw [if_neg hxk] at hfx
      exact Or.inl (hfx ▸ hx)
  · intro h
    rcases List.mem_append.mp h with h | h
    · exact Or.inl h
    · exact Or.inr (List.mem_singleton.mp h)

lemma extractPropLine_keys (m : List (String × String)) (line k : String) :
    (∃ w, (k, w) ∈ extractPropLine m line) ↔
      (∃ w, (k, w) ∈ m) ∨ lineKey line = some k := by
  unfold extractPropLine lineKey
  cases h : linePair line with
  | none => simp [h]
  | some kv => simp [h, dictAssign_keys, eq_comm]

lemma extractPropLine_pairs (m : List (String × String)) (line : String)
    (kv' : String × String) :
    kv' ∈ extractPropLine m line → kv' ∈ m ∨ linePair line = some kv' := by
  unfold extractPropLine
  cases h : linePair line with
  | none => exact Or.inl
  | some kv =>
      intro hm
      rcases dictAssign_pairs m kv.1 kv.2 kv' hm with h1 | h1
      · exact Or.inl h1
      · exact Or.inr (by rw [h1])

lemma foldl_extract_keys (lines : List String) (m : List (String × String)) (k : String) :
    (∃ w, (k, w) ∈ lines.foldl extractPropLine m) ↔
      (∃ w, (k, w) ∈ m) ∨ ∃ line ∈ lines, lineKey line = some k := by
  induction lines generalizing m with
  | nil => simp
  | cons line rest ih =>
      rw [List.foldl_cons, ih, extractPropLine_keys]
      simp [List.exists_mem_cons_iff, or_assoc]

lemma foldl_extract_pairs (lines : List String) (m : List (String × String))
    (kv' : String × String) :
    kv' ∈ lines.foldl extractPropLine m →
      kv' ∈ m ∨ ∃ line ∈ lines, linePair line = some kv' := by
  induction lines generalizing m with
  | nil => exact fun h => Or.inl h
  | cons line rest ih =>
      intro h
      rcases ih (extractPropLine m line) h with h1 | h1
      · rcases extractPropLine_pairs m line kv' h1 with h2 | h2
        · exact Or.inl h2
        · exact Or.inr ⟨line, List.mem_cons_self line rest, h2⟩
      · obtain ⟨l, hl, hp⟩ := h1
        exact Or.inr ⟨l, List.mem_cons_of_mem _ hl, hp⟩

/-- C8: for every property-file text, the extractor's keys are exactly the
trimmed keys of the non-empty, non-comment lines containing `=` (split on
the first `=` only, so lines without `=` never appear as keys); every stored
pair is the trimmed key/value pair of such a line; and parsing the same text
twice yields identical maps. -/
theorem c8_extract_properties_characterization (text : String) :
    (∀ k, (∃ v, (k, v) ∈ extract_properties text) ↔
        ∃ line ∈ pySplitlines text, lineKey line = some k) ∧
    (∀ kv, kv ∈ extract_properties text →
        ∃ line ∈ pySplitlines text, linePair line = some kv) ∧
    extract_properties text = extract_properties text := by
  refine ⟨fun k => ?_, fun kv hkv => ?_, rfl⟩
  · rw [extract_properties, foldl_extract_keys]
    simp
  · rcases foldl_extract_pairs _ _ _ hkv with h | h
    · simp at h
    · exact h

theorem c8_extract_properties_characterization_witness :
    ∃ line ∈ pySplitlines "AUTH_METHOD = Basic",
      linePair line = some ("AUTH_METHOD", "Basic") :=
  (c8_extract_properties_characterization "AUTH_METHOD = Basic").2.1
    ("AUTH_METHOD", "Basic") (by decide)

/-! ### Parameter-resolution precedence (claim C7) -/

/-- C7 counterexample: with the mapping `{"A_X": "suffixValue", "X":
"exactValue"}` and parameter `X`, the source's loop returns the value of the
*earlier* suffix-matching key even though an exactly matching key exists, so
exact matches are not tried first as the claim states. -/
theorem c7_exact_match_not_preferred :
    resolveParam [("A_X", "suffixValue"), ("X", "exactValue")] "X" = some "suffixValue" ∧
    specResolveParam [("A_X", "suffixValue"), ("X", "exactValue")] "X" = some "exactValue" ∧
    resolveParam [("A_X", "suffixValue"), ("X", "exactValue")] "X" ≠
      specResolveParam [("A_X", "suffixValue"), ("X", "exactValue")] "X" :=
  ⟨rfl, rfl, by decide⟩

/-- C7 amended: resolution scans the property mapping in insertion order and
returns the value of the first key satisfying *any* of the three criteria
(exact, suffix `_<param>`, case-insensitive); there is no precedence among
the criteria. -/
theorem c7_resolution_first_match_wins (props : List (String × String)) (paramName : String) :
    resolveParam props paramName =
      ((props.filter fun kv => pkMatches kv.1 paramName).head?).map fun kv => kv.2 := by
  induction props with
  | nil => rfl
  | cons kv rest ih =>
      by_cases h : pkMatches kv.1 paramName
      · simp [resolveParam, List.filter_cons, h]
      · simp [resolveParam, List.filter_cons, h, ih]

/-! ### The properties handed to the security check are always empty (claim C2) -/

/-- C2: `SAPConnection` has no `extract_properties` method, so both calls
`self.extract_properties(...)` in `integrate_security_check` raise
`AttributeError`, which the surrounding handlers swallow; consequently the
properties mapping passed on to `check_security_compliance` is empty for
every artifact path, archive content and adjacent `parameters.prop`
content. -/
theorem c2_properties_passed_are_empty :
    "extract_properties" ∉ sapConnectionMethodNames ∧
    ∀ (iflowPath : String) (zipEntries : List (String × String))
      (paramsFileContent : Option String),
      integrateGatherProps iflowPath zipEntries paramsFileContent = [] := by
  have hcall : ∀ s, callExtractProperties s =
      Except.error "AttributeError: \x27SAPConnection\x27 object has no attribute \x27extract_properties\x27" := by
    intro s
    unfold callExtractProperties
    rw [if_neg (by decide)]
  refine ⟨by decide, fun iflowPath zipEntries paramsFileContent => ?_⟩
  have hfold : ∀ (l : List String) (acc : List (String × String)),
      l.foldl zipPropStep acc = acc := by
    intro l
    induction l with
    | nil => intro acc; rfl
    | cons c rest ih =>
        intro acc
        rw [List.foldl_cons]
        have : zipPropStep acc c = acc := by
          unfold zipPropStep
          rw [hcall]
        rw [this, ih]
  unfold integrateGatherProps
  split
  · rw [hfold]
    cases paramsFileContent with
    | none => rfl
    | some paramContent => simp [hcall]
  · cases paramsFileContent with
    | none => rfl
    | some paramContent => simp [hcall]

theorem c2_properties_passed_are_empty_witness :
    integrateGatherProps "/scratch/test.iflw"
      [("parameters.prop", "AUTH_METHOD=Basic")] (some "AUTH_METHOD=Basic") = [] :=
  c2_properties_passed_are_empty.2 "/scratch/test.iflw"
    [("parameters.prop", "AUTH_METHOD=Basic")] (some "AUTH_METHOD=Basic")

/-! ### The concrete archive scenario (claim C1) -/

/-- The IFlow definition of the scenario: it declares
`<key>authenticationMethod</key><value>{{AUTH_METHOD}}</value>`. -/
def c1Content : String :=
  "<iflow><property><key>authenticationMethod</key><value>\x7b\x7bAUTH_METHOD\x7d\x7d</value></property></iflow>"

/-- The `ET.fromstring` parse of `c1Content`. -/
def c1Tree : XElem :=
  xe "iflow" [] none
    [xe "property" [] none
      [xe "key" [] (some "authenticationMethod") [],
       xe "value" [] (some "\x7b\x7bAUTH_METHOD\x7d\x7d") []]]

/-- C1, at the failing input: for the archive containing `test.iflw` with a
parameterized `authenticationMethod` and `parameters.prop` with
`AUTH_METHOD=Basic`, the security analysis that `get_iflow_content` actually
runs (via `integrate_security_check` on the extracted `.iflw`, with the
adjacent `parameters.prop` present) reports `security_compliant = true` and
no issues — because the `AttributeError` on the missing `extract_properties`
method leaves the property mapping empty, `{{AUTH_METHOD}}` never resolves
to `Basic`, and the raw placeholder is even recorded as a detected method.
With the intended property parsing (the `extract_properties` of
`simplified_auth_validator.py`) the same content yields
`is_compliant = false` and an issue naming both `AUTH_METHOD` and `Basic`,
as the claim expects. -/
theorem c1_security_analysis_at_failing_input :
    ((integrate_security_check c1Content (some c1Tree) "/scratch/extracted_u/test.iflw"
        [] (some "AUTH_METHOD=Basic") initResult).security_compliant = true ∧
      (integrate_security_check c1Content (some c1Tree) "/scratch/extracted_u/test.iflw"
        [] (some "AUTH_METHOD=Basic") initResult).security_issues = []) ∧
    ((check_security_compliance c1Content (some c1Tree)
        (extract_properties "AUTH_METHOD=Basic")).is_compliant = false ∧
      ∃ s ∈ (check_security_compliance c1Content (some c1Tree)
        (extract_properties "AUTH_METHOD=Basic")).issues,
        strIn "AUTH_METHOD" s = true ∧ strIn "Basic" s = true) :=
  ⟨⟨rfl, rfl⟩, rfl,
    ⟨"Basic Authentication detected via parameter: \x27AUTH_METHOD\x27 = \x27Basic\x27",
      by decide, by decide, by decide⟩⟩

/-! ### Error-handling flag (claim C5) -/

lemma ehSubprocStep_flag (ns : NsSet) (acc : List EHEntry × Bool) (sp : XElem) :
    (ehSubprocStep ns acc sp).2 =
      (acc.2 || (spHasErrorEvent sp ns || (spErrProp sp ns).isSome)) := by
  unfold ehSubprocStep
  cases h : spErrProp sp ns with
  | some v => by_cases he : spHasErrorEvent sp ns <;> simp [he, h]
  | none => by_cases he : spHasErrorEvent sp ns <;> simp [he, h]

lemma foldl_ehSubprocStep_flag (ns : NsSet) (l : List XElem) :
    ∀ acc : List EHEntry × Bool,
      (l.foldl (ehSubprocStep ns) acc).2 =
        (acc.2 || l.any fun sp => spHasErrorEvent sp ns || (spErrProp sp ns).isSome) := by
  induction l with
  | nil => intro acc; simp
  | cons sp rest ih =>
      intro acc
      rw [List.foldl_cons, ih, ehSubprocStep_flag]
      simp [Bool.or_assoc]

/-- A parsed document containing an `errorHandler` element and no
subprocess at all. -/
def ehOnlyHandlerDoc : XElem :=
  xe "root" [] none [xe "errorHandler" [] none []]

/-- C5 counterexample: on a document with an `errorHandler` element and no
subprocess (hence no error-handling element containing an error-event
definition), `_extract_error_handling` still sets
`has_proper_error_handling = true`, so the claimed "iff" fails. -/
theorem c5_error_handler_counterexample :
    (extractErrorHandling ehOnlyHandlerDoc [] initResult).has_proper_error_handling = true ∧
    allSubprocs ehOnlyHandlerDoc [] = [] :=
  ⟨rfl, rfl⟩

/-- C5 amended: `has_proper_error_handling` is true iff at least one
subprocess contains an error-event definition, **or** a subprocess carries
an `activityType` property mentioning `error`, **or** an `errorHandler` or
`deadLetterQueue` element is present. -/
theorem c5_has_proper_error_handling_characterization
    (root : XElem) (ns : NsSet) (r : IFlowResult) :
    (extractErrorHandling root ns r).has_proper_error_handling = true ↔
      ((∃ sp ∈ allSubprocs root ns,
          spHasErrorEvent sp ns = true ∨ (spErrProp sp ns).isSome = true) ∨
        handlerHits root ns ≠ []) := by
  unfold extractErrorHandling
  simp only [foldl_ehSubprocStep_flag, Bool.false_or, Bool.or_eq_true,
    List.any_eq_true, List.isEmpty_iff, Bool.not_eq_true']
  constructor
  · rintro (⟨sp, hsp, hp⟩ | hne)
    · exact Or.inl ⟨sp, hsp, by simpa using hp⟩
    · exact Or.inr fun h => by simp [h] at hne
  · rintro (⟨sp, hsp, hp⟩ | hne)
    · exact Or.inl ⟨sp, hsp, by rcases hp with h | h <;> simp [h]⟩
    · right
      cases h : (handlerHits root ns).isEmpty
      · rfl
      · exact absurd (List.isEmpty_iff.mp h) hne

theorem c5_has_proper_error_handling_characterization_witness :
    (extractErrorHandling ehOnlyHandlerDoc [] initResult).has_proper_error_handling = true :=
  (c5_has_proper_error_handling_characterization ehOnlyHandlerDoc [] initResult).mpr
    (Or.inr (by decide))

/-! ### The namespace-profile loop (claim C6) -/

/-- A well-formed document with no participants and no processes. -/
def fooElem : XElem := xe "foo" [] none []

/-- C6 counterexample: on `<foo/>` the profile loop keeps the *first*
profile's (empty) extraction results — no participant and no process was
discovered, yet the later profiles are never attempted, contradicting the
claim that the loop stops only at the first profile yielding a structural
signal. -/
theorem c6_first_profile_kept_without_signal :
    processIflowProfiles (some fooElem) iflowNamespaceSets =
      some (iflowNs1, runProfileExtraction fooElem iflowNs1) ∧
    (runProfileExtraction fooElem iflowNs1).senders = [] ∧
    (runProfileExtraction fooElem iflowNs1).receivers = [] ∧
    (runProfileExtraction fooElem iflowNs1).processes = [] :=
  ⟨rfl, rfl, rfl, rfl⟩

/-- C6 amended: the loop stops at the first profile under which the
document parses and the extraction pass completes; since `ET.fromstring`
does not depend on the profile, every well-formed document uses the first
profile regardless of what it yields, and later profiles are reached only
when parsing fails — in which case every profile fails and the caller falls
back to regex extraction. -/
theorem c6_profile_loop_stops_on_parse_success (root : XElem) :
    processIflowProfiles (some root) iflowNamespaceSets =
      some (iflowNs1, runProfileExtraction root iflowNs1) ∧
    processIflowProfiles none iflowNamespaceSets = none :=
  ⟨rfl, rfl⟩

/-! ### Corrupt archive handling (claim C10) -/

/-- C10: for an existing `.zip` path whose bytes are not a valid archive
(`zipfile.ZipFile` raises `BadZipFile`, modelled by `zipData = none`),
`get_iflow_content` returns a record whose top-level `error` field is set;
the exception is absorbed by the handler inside `_process_zip_file`
(line 787) and never propagates to the caller — in the model, every
exception is an explicit `Except` value and the function is total. -/
theorem c10_corrupt_zip_reports_error (fs : FS) (p unzipDir : String)
    (hex : (fsLookup fs p).isSome = true) (hzip : pyEndsWith p ".zip" = true) :
    ((getIflowContent fs (some p) unzipDir none).2).error =
      some "Extraction error: File is not a zip file" := by
  cases h : fsLookup fs p with
  | none => rw [h] at hex; simp at hex
  | some v =>
      simp only [getIflowContent, h, hzip, Option.isNone_some, Bool.false_eq_true,
        if_false, if_true]
      rfl

theorem c10_corrupt_zip_reports_error_witness :
    ((getIflowContent [("/a/flow.zip", "PKcorrupt")] (some "/a/flow.zip")
        "/a/extracted_u" none).2).error =
      some "Extraction error: File is not a zip file" :=
  c10_corrupt_zip_reports_error [("/a/flow.zip", "PKcorrupt")] "/a/flow.zip"
    "/a/extracted_u" (by decide) (by decide)

/-! ### Monotonicity of the analyzer stages (for claims C3 and C4)

No stage of `check_security_compliance` ever flips `is_compliant` back to
true, and no stage drops an issue (deduplication preserves membership). -/

def SecMono (f : SecResult → SecResult) : Prop :=
  ∀ r, ((f r).is_compliant = true → r.is_compliant = true) ∧
       ∀ s, s ∈ r.issues → s ∈ (f r).issues

lemma SecMono.id_mono : SecMono fun r => r :=
  fun _ => ⟨fun h => h, fun _ hs => hs⟩

lemma SecMono.comp {f g : SecResult → SecResult} (hf : SecMono f) (hg : SecMono g) :
    SecMono fun r => g (f r) :=
  fun r => ⟨fun h => (hf r).1 ((hg (f r)).1 h), fun s hs => (hg (f r)).2 s ((hf r).2 s hs)⟩

lemma SecMono.false_mono {f : SecResult → SecResult} (hf : SecMono f) {r : SecResult}
    (h : r.is_compliant = false) : (f r).is_compliant = false := by
  cases hc : (f r).is_compliant
  · rfl
  · rw [(hf r).1 hc] at h
    exact absurd h (by simp)

lemma SecMono.foldl {α : Type} (step : SecResult → α → SecResult)
    (h : ∀ x, SecMono fun r => step r x) :
    ∀ l : List α, SecMono fun r => l.foldl step r := by
  intro l
  induction l with
  | nil => exact SecMono.id_mono
  | cons x xs ih =>
      intro r
      simp only [List.foldl_cons]
      exact (SecMono.comp (h x) ih) r

lemma processDirectMatch_mono (m : String) : SecMono fun r => processDirectMatch r m := by
  intro r
  by_cases h1 : pyStrip m ≠ "" <;>
  by_cases h2 : r.detected_methods.contains (pyStrip m) = true <;>
  by_cases h3 : isBasicStr (pyStrip m) = true <;>
  refine ⟨fun h => ?_, fun s hs => ?_⟩ <;>
  simp_all [processDirectMatch, List.mem_append]

lemma processParamMatch_mono (properties : List (String × String)) (pn : String) :
    SecMono fun r => processParamMatch properties r pn := by
  intro r
  cases hres : resolveParam properties (pyStrip pn) with
  | none =>
      refine ⟨fun h => ?_, fun s hs => ?_⟩ <;>
      simp_all [processParamMatch, List.mem_append]
  | some v =>
      by_cases h1 : v ≠ "" <;>
      by_cases h2 : r.detected_methods.contains v = true <;>
      by_cases h3 : isBasicStr v = true <;>
      refine ⟨fun h => ?_, fun s hs => ?_⟩ <;>
      simp_all [processParamMatch, List.mem_append]

lemma processFlowProp_mono (properties : List (String × String)) (kv : String × String) :
    SecMono fun r => processFlowProp properties r kv := by
  intro r
  by_cases hk : kv.1 = "authenticationMethod"
  case neg =>
    refine ⟨fun h => ?_, fun s hs => ?_⟩ <;>
    simp_all [processFlowProp]
  case pos =>
    by_cases hd : (!(pyStartsWith kv.2 "\x7b\x7b" && pyEndsWith kv.2 "\x7d\x7d")) = true
    · by_cases h2 : r.detected_methods.contains kv.2 = true <;>
      by_cases h3 : isBasicStr kv.2 = true <;>
      refine ⟨fun h => ?_, fun s hs => ?_⟩ <;>
      simp_all [processFlowProp, List.mem_append]
    · cases hres : resolveParam properties (pyStrip ((kv.2.drop 2).dropRight 2)) with
      | none =>
          refine ⟨fun h => ?_, fun s hs => ?_⟩ <;>
          simp_all [processFlowProp, List.mem_append]
      | some v =>
          by_cases h1 : v ≠ "" <;>
          by_cases h2 : r.detected_methods.contains v = true <;>
          by_cases h3 : isBasicStr v = true <;>
          refine ⟨fun h => ?_, fun s hs => ?_⟩ <;>
          simp_all [processFlowProp, List.mem_append]

lemma processFlow_mono (ns : NsSet) (properties : List (String × String)) (flow : XElem) :
    SecMono fun r => processFlow ns properties r flow :=
  SecMono.foldl _ (processFlowProp_mono properties) _

lemma stage3Ns_mono (root : XElem) (properties : List (String × String)) :
    ∀ sets : List NsSet, SecMono fun r => stage3Ns root properties sets r := by
  intro sets
  induction sets with
  | nil => exact SecMono.id_mono
  | cons ns rest ih =>
      have hiter : SecMono fun r =>
          (msgFlowPats.map fun p => findPat root p ns).foldl
            (fun acc flows => flows.foldl (processFlow ns properties) acc) r :=
        SecMono.foldl _ (fun flows => SecMono.foldl _ (fun flow r =>
          processFlow_mono ns properties flow r) flows) _
      intro r
      simp only [stage3Ns]
      split
      · exact hiter r
      · exact (SecMono.comp hiter ih) r

lemma stage3_mono (parsed : Option XElem) (properties : List (String × String)) :
    SecMono fun r => stage3 parsed properties r := by
  cases parsed with
  | none => exact fun r => ⟨fun h => h, fun s hs => hs⟩
  | some root => exact stage3Ns_mono root properties secNsSets

lemma stage2_mono (content : String) (properties : List (String × String)) :
    SecMono fun r => stage2 content properties r :=
  SecMono.foldl _ (processParamMatch_mono properties) _

lemma stage4_mono (content : String) : SecMono fun r => stage4 content r := by
  intro r
  by_cases hd : r.detected_methods.isEmpty = true <;>
  by_cases h1 : basicAuthFallbackHit content = true <;>
  by_cases h2 : oauthFallbackHit content = true <;>
  by_cases h3 : certFallbackHit content = true <;>
  refine ⟨fun h => ?_, fun s hs => ?_⟩ <;>
  simp_all [stage4, List.mem_append]

lemma stage5Step_mono (kv : String × String) : SecMono fun r => stage5Step r kv := by
  have hfields : ∀ r, (stage5Step r kv).is_compliant = r.is_compliant ∧
      (stage5Step r kv).issues = r.issues := by
    intro r
    unfold stage5Step
    split_ifs <;> simp
  intro r
  refine ⟨fun h => ?_, fun s hs => ?_⟩
  · rw [(hfields r).1] at h
    exact h
  · rw [(hfields r).2]
    exact hs

lemma stage5_mono (properties : List (String × String)) :
    SecMono fun r => stage5 properties r :=
  SecMono.foldl _ stage5Step_mono _

lemma dedupStage_mono : SecMono dedupStage := by
  intro r
  exact ⟨fun h => h, fun s hs => List.mem_dedup.mpr hs⟩

lemma stage6_mono (content : String) : SecMono fun r => stage6 content r := by
  intro r
  refine ⟨fun h => ?_, fun s hs => ?_⟩
  · unfold stage6 at h
    simp only [] at h
    split at h
    · simp at h
    · exact h
  · unfold stage6
    simp only []
    split
    · simp [List.mem_append, hs]
    · exact hs

/-- Everything that runs after the direct-authentication stage is
monotone. -/
lemma afterStage1_mono (content : String) (parsed : Option XElem)
    (properties : List (String × String)) :
    SecMono fun r => stage6 content (dedupStage (stage5 properties (stage4 content
      (stage3 parsed properties (stage2 content properties r))))) := by
  intro r
  refine ⟨fun h => ?_, fun s hs => ?_⟩
  · exact (stage2_mono content properties r).1
      ((stage3_mono parsed properties _).1
        ((stage4_mono content _).1
          ((stage5_mono properties _).1
            ((dedupStage_mono _).1
              ((stage6_mono content _).1 h)))))
  · exact (stage6_mono content _).2 _
      ((dedupStage_mono _).2 _
        ((stage5_mono properties _).2 _
          ((stage4_mono content _).2 _
            ((stage3_mono parsed properties _).2 _
              ((stage2_mono content properties r).2 s hs)))))

/-! ### Direct Basic authentication (claim C3) -/

lemma processDirectMatch_basic (r : SecResult) (m : String)
    (hb : isBasicStr (pyStrip m) = true) :
    (processDirectMatch r m).is_compliant = false ∧
      ("Direct Basic Authentication detected: \x27" ++ pyStrip m ++ "\x27") ∈
        (processDirectMatch r m).issues := by
  have hne : pyStrip m ≠ "" := by
    intro h
    rw [h] at hb
    exact absurd hb (by decide)
  unfold processDirectMatch
  rw [if_pos hne, if_pos hb]
  exact ⟨rfl, by simp⟩

lemma foldl_processDirectMatch_basic (l : List String) (m : String)
    (hm : m ∈ l) (hb : isBasicStr (pyStrip m) = true) :
    ∀ r, (l.foldl processDirectMatch r).is_compliant = false ∧
      ("Direct Basic Authentication detected: \x27" ++ pyStrip m ++ "\x27") ∈
        (l.foldl processDirectMatch r).issues := by
  induction l with
  | nil => cases hm
  | cons x xs ih =>
      intro r
      rw [List.foldl_cons]
      rcases List.mem_cons.mp hm with rfl | hmem
      · have hstep := processDirectMatch_basic r m hb
        have hmono := SecMono.foldl processDirectMatch processDirectMatch_mono xs
        exact ⟨hmono.false_mono hstep.1, (hmono _).2 _ hstep.2⟩
      · exact ih hmem (processDirectMatch r x)

/-- C3: whenever the direct-authentication scan captures a value whose
stripped form is, case-insensitively, `basic` or `basic authentication`, the
analyzer returns `is_compliant = false` and a non-empty issue list
containing the issue that names the detected value. -/
theorem c3_direct_basic_flags_noncompliant (content : String) (parsed : Option XElem)
    (properties : List (String × String)) (m : String)
    (hm : m ∈ directAuthMatches content) (hb : isBasicStr (pyStrip m) = true) :
    (check_security_compliance content parsed properties).is_compliant = false ∧
    ("Direct Basic Authentication detected: \x27" ++ pyStrip m ++ "\x27") ∈
      (check_security_compliance content parsed properties).issues ∧
    (check_security_compliance content parsed properties).issues ≠ [] := by
  have h1 := foldl_processDirectMatch_basic (directAuthMatches content) m hm hb
    ⟨[], true, [], []⟩
  have hmono := afterStage1_mono content parsed properties
  have hc : (check_security_compliance content parsed properties).is_compliant = false :=
    hmono.false_mono h1.1
  have hmem : ("Direct Basic Authentication detected: \x27" ++ pyStrip m ++ "\x27") ∈
      (check_security_compliance content parsed properties).issues :=
    (hmono _).2 _ h1.2
  exact ⟨hc, hmem, List.ne_nil_of_mem hmem⟩

theorem c3_direct_basic_flags_noncompliant_witness :
    (check_security_compliance "<key>authenticationMethod</key><value>Basic</value>"
        none []).is_compliant = false ∧
    ("Direct Basic Authentication detected: \x27" ++ pyStrip "Basic" ++ "\x27") ∈
      (check_security_compliance "<key>authenticationMethod</key><value>Basic</value>"
        none []).issues ∧
    (check_security_compliance "<key>authenticationMethod</key><value>Basic</value>"
        none []).issues ≠ [] :=
  c3_direct_basic_flags_noncompliant
    "<key>authenticationMethod</key><value>Basic</value>" none [] "Basic"
    (by decide) (by decide)

/-! ### Missing-authentication policy (claim C4) -/

/-- C4: when the returned result has no detected methods and the content
matches the external-call pattern, the final policy marks the result
non-compliant and appends the possible-missing-authentication issue. -/
theorem c4_no_methods_external_pattern_noncompliant (content : String)
    (parsed : Option XElem) (properties : List (String × String))
    (h1 : (check_security_compliance content parsed properties).detected_methods = [])
    (h2 : extCallPattern content = true) :
    (check_security_compliance content parsed properties).is_compliant = false ∧
    "Possible missing authentication for external services" ∈
      (check_security_compliance content parsed properties).issues := by
  have hdet : ∀ r, (stage6 content r).detected_methods = r.detected_methods := by
    intro r
    unfold stage6
    split <;> rfl
  unfold check_security_compliance at h1 ⊢
  rw [hdet] at h1
  unfold stage6
  rw [if_pos (by simp [h1, h2])]
  exact ⟨rfl, by simp⟩

theorem c4_no_methods_external_pattern_noncompliant_witness :
    (check_security_compliance "<x>see http://example.com</x>" none []).is_compliant = false ∧
    "Possible missing authentication for external services" ∈
      (check_security_compliance "<x>see http://example.com</x>" none []).issues :=
  c4_no_methods_external_pattern_noncompliant "<x>see http://example.com</x>" none []
    (by decide) (by decide)

/-! ### Scratch-directory cleanup (claim C9) -/

lemma isPrefixOf_append_self (l t : List Char) : l.isPrefixOf (l ++ t) = true := by
  induction l with
  | nil => simp [List.isPrefixOf]
  | cons c cs ih => simp [List.isPrefixOf, ih]

lemma underDir_append (d s : String) : underDir d (d ++ "/" ++ s) = true := by
  unfold underDir
  have hdata : (d ++ "/" ++ s).data = (d ++ "/").data ++ s.data := rfl
  rw [hdata, isPrefixOf_append_self]
  simp

lemma underDir_self (d : String) : underDir d d = true := by
  unfold underDir
  simp

lemma rmtree_of_fresh (fs : FS) (d : String)
    (h : ∀ e ∈ fs, underDir d e.1 = false) : rmtree fs d = fs :=
  List.filter_eq_self.mpr fun e he => by simp [h e he]

lemma filter_not_under_map (fs : FS) (d p c : String) (hp : underDir d p = true) :
    ((fs.map fun e => if e.1 = p then (p, c) else e).filter fun e => !underDir d e.1) =
      fs.filter fun e => !underDir d e.1 := by
  induction fs with
  | nil => rfl
  | cons e rest ih =>
      by_cases he : e.1 = p
      · have hu : underDir d e.1 = true := he ▸ hp
        simp [List.filter_cons, he, hp, hu, ih]
      · simp [List.filter_cons, he, ih]

lemma rmtree_fsWrite_under (fs : FS) (d p c : String) (hp : underDir d p = true) :
    rmtree (fsWrite fs p c) d = rmtree fs d := by
  unfold fsWrite rmtree
  split
  · exact filter_not_under_map fs d p c hp
  · rw [List.filter_append]
    simp [hp]

lemma rmtree_foldl_writes (entries : List (String × String)) (d : String) :
    ∀ fs : FS,
      rmtree (entries.foldl (fun acc en => fsWrite acc (d ++ "/" ++ en.1) en.2) fs) d =
        rmtree fs d := by
  induction entries with
  | nil => intro fs; rfl
  | cons en rest ih =>
      intro fs
      rw [List.foldl_cons, ih, rmtree_fsWrite_under fs d _ en.2 (underDir_append d en.1)]

lemma rmtree_mkdirp (fs : FS) (d : String) : rmtree (mkdirp fs d) d = rmtree fs d := by
  unfold mkdirp
  split
  · rfl
  · unfold rmtree
    rw [List.filter_append]
    simp [underDir_self]

lemma fsLookup_none_of_fresh (fs : FS) (d p : String)
    (hfresh : ∀ e ∈ fs, underDir d e.1 = false) (hp : underDir d p = true) :
    fsLookup fs p = none := by
  induction fs with
  | nil => rfl
  | cons e rest ih =>
      have he := hfresh e (List.mem_cons_self e rest)
      cases e with
      | mk k v =>
          cases hpk : p == k with
          | true =>
              rw [show p = k from by simpa using hpk] at hp
              rw [hp] at he
              exact absurd he (by simp)
          | false =>
              show List.lookup p ((k, v) :: rest) = none
              simp only [List.lookup_cons, hpk]
              exact ih fun x hx => hfresh x (List.mem_cons_of_mem _ hx)

/-- C9: for every filesystem in which nothing lies under the (uuid-fresh)
scratch directory, `_process_zip_file` restores the filesystem exactly on
every exit path — both on a successful unpack and when opening the archive
raises (the `finally` block runs regardless) — so the scratch directory does
not persist after the call, and in particular the source archive's entry is
untouched. -/
theorem c9_scratch_removed_and_fs_restored (fs : FS) (unzipDir : String)
    (zipData : Option (List (String × String))) (r : IFlowResult)
    (hfresh : ∀ e ∈ fs, underDir unzipDir e.1 = false) :
    (processZipFile fs unzipDir zipData r).1 = fs ∧
    ∀ p, underDir unzipDir p = true →
      fsLookup (processZipFile fs unzipDir zipData r).1 p = none := by
  have hfs : (processZipFile fs unzipDir zipData r).1 = fs := by
    unfold processZipFile
    cases zipData with
    | none =>
        show rmtree (mkdirp fs unzipDir) unzipDir = fs
        rw [rmtree_mkdirp, rmtree_of_fresh fs unzipDir hfresh]
    | some entries =>
        show rmtree ((selectedEntries entries).foldl
          (fun acc en => fsWrite acc (unzipDir ++ "/" ++ en.1) en.2)
          (mkdirp fs unzipDir)) unzipDir = fs
        rw [rmtree_foldl_writes, rmtree_mkdirp, rmtree_of_fresh fs unzipDir hfresh]
  exact ⟨hfs, fun p hp => by rw [hfs]; exact fsLookup_none_of_fresh fs unzipDir p hfresh hp⟩

theorem c9_scratch_removed_and_fs_restored_witness :
    (processZipFile [("/a/flow.zip", "PKDATA")] "/a/extracted_u1"
        (some [("src/main/test.iflw", "<bpmn2:definitions/>")]) initResult).1 =
      [("/a/flow.zip", "PKDATA")] :=
  (c9_scratch_removed_and_fs_restored [("/a/flow.zip", "PKDATA")] "/a/extracted_u1"
    (some [("src/main/test.iflw", "<bpmn2:definitions/>")]) initResult (by decide)).1

end SapTools
